import Mathlib

/-!
A shallow embedding of the Soroban NFT collection contract
(`src/contract.rs`, `impl NFTCollection`) and proofs about it.

Modelling conventions:
* `Address` is `Nat`; the host's `require_auth` gate is an injected predicate
  `auth : Address → Bool` saying which identities' authorization proofs
  succeed for the current call.
* Storage is explicit state passing over `ContractState`.  Persistent
  per-token records are an association list keyed by the `u32` token id;
  instance singletons are fields.  `has` on a key is presence; `get` with
  `unwrap_or(0)` is `Option.getD 0`.
* A Soroban `panic_with_error` aborts the invocation and rolls back every
  tentative write, so each operation is a total function
  `ContractState → Except Err ContractState`:  an `.error` outcome leaves no
  post-state, which is exactly the host's rollback semantics.
* `u32` arithmetic: token ids and counters are `Nat`.  The two places the
  contract can underflow a `u32` (`tokens_count -= 1`, and
  `checked_sub(...).unwrap()` in `approve_all`) are modelled as explicit
  `.error .arithUnderflow` outcomes.
* Events, TTL bumps of persistent entries, and the wasm upgrade itself are
  external side effects with no observable contract state, and are omitted;
  the temporary operator record's TTL is kept because `approve_all`'s
  observable contract is exactly the TTL it requests.
-/

abbrev Address := Nat

/-- The ledger clock visible to the contract: `env.ledger().sequence()` and
`env.ledger().timestamp()`. -/
structure Ledger where
  sequence : Nat
  timestamp : Nat
  deriving DecidableEq

/-- Modelled from the spec: `Expiration` is a tagged value meaning "never",
"at ledger height H", or "at timestamp T" (`types.rs` is not among the
sources; §3 of the spec describes the type). -/
inductive Expiration
  | Never : Expiration
  | AtHeight : Nat → Expiration
  | AtTime : Nat → Expiration
  deriving DecidableEq

instance : Inhabited Expiration := ⟨Expiration.Never⟩

/-- Modelled from the spec: `is_expired` compares the tag against the current
ledger clock; an approval set to expire at height `H` is expired at every
height `≥ H` (spec §3 and §8: "at height ≥ H ... fails; at height < H it
succeeds"). -/
def Expiration.is_expired (e : Expiration) (env : Ledger) : Bool :=
  match e with
  | .Never => false
  | .AtHeight h => decide (h ≤ env.sequence)
  | .AtTime t => decide (t ≤ env.timestamp)

/-- Modelled from the spec (§3): optional royalty data, a recipient and a
bounded integer share. -/
structure RoyaltyInfo where
  recipient : Address
  share : Nat
  deriving DecidableEq

/-- Modelled from the spec (§3) and the field accesses in `contract.rs`:
the singleton collection record. -/
structure CollectionInfo where
  creator : Address
  admin : Address
  minter : Address
  name : Option String
  description : Option String
  external_link : Option String
  royalty_info : Option RoyaltyInfo
  deriving DecidableEq

/-- Modelled from the spec (§3) and the field accesses in `contract.rs`:
a per-id item record.  `approvals` is a map from spender to `Expiration`,
represented as an association list. -/
structure TokenInfo where
  owner : Address
  approvals : List (Address × Expiration)
  token_uri : String
  deriving DecidableEq

/-- The contract's symbolic error codes (`Error` in `types.rs`, names as used
by `contract.rs`). -/
inductive Error
  | Initialized
  | NotInitialized
  | NotNFT
  | AlreadyMinted
  | NotAuthorized
  | Frozen
  | MinterFrozen
  | InvalidCollectionInfo
  deriving DecidableEq

/-- Every way a call can abort: a contract error raised by
`panic_with_error`, a failed `require_auth` host check for a given address, or
a `u32` underflow panic. -/
inductive Err
  | contractErr : Error → Err
  | authErr : Address → Err
  | arithUnderflow
  deriving DecidableEq

/-- A temporary-storage operator record: the stored value (the absolute
expiration ledger passed to `approve_all`) together with the time-to-live the
contract requested for it via `extend_ttl`. -/
structure OperatorRec where
  value : Nat
  ttl : Nat
  deriving DecidableEq

/-- The whole observable storage of one deployed contract instance. -/
structure ContractState where
  collectionInfo : Option CollectionInfo
  minterFrozen : Bool
  frozen : Bool
  tokens : List (Nat × TokenInfo)
  tokensCount : Option Nat
  maxTokenId : Option Nat
  operators : List ((Address × Address) × OperatorRec)
  deriving DecidableEq

/-- `env.storage().persistent().get(&DataKey::Token(id))`. -/
def tokensGet (ts : List (Nat × TokenInfo)) (id : Nat) : Option TokenInfo :=
  ts.lookup id

/-- `env.storage().persistent().has(&DataKey::Token(id))`. -/
def tokensHas (ts : List (Nat × TokenInfo)) (id : Nat) : Bool :=
  (tokensGet ts id).isSome

/-- `env.storage().persistent().remove(&DataKey::Token(id))`. -/
def tokensRemove (ts : List (Nat × TokenInfo)) (id : Nat) : List (Nat × TokenInfo) :=
  ts.filter (fun p => p.1 != id)

/-- `env.storage().persistent().set(&DataKey::Token(id), t)`. -/
def tokensSet (ts : List (Nat × TokenInfo)) (id : Nat) (t : TokenInfo) : List (Nat × TokenInfo) :=
  (id, t) :: tokensRemove ts id

/-- Lookup in the temporary `(owner, operator)` store. -/
def opGet (os : List ((Address × Address) × OperatorRec)) (k : Address × Address) : Option OperatorRec :=
  os.lookup k

/-- `env.storage().temporary().set(&DataKey::Operator(..), v)` (with a ttl
field carried alongside the stored value). -/
def opSet (os : List ((Address × Address) × OperatorRec)) (k : Address × Address) (v : OperatorRec) : List ((Address × Address) × OperatorRec) :=
  (k, v) :: os.filter (fun p => p.1 != k)

/-- `env.storage().temporary().remove(&DataKey::Operator(..))`. -/
def opRemove (os : List ((Address × Address) × OperatorRec)) (k : Address × Address) : List ((Address × Address) × OperatorRec) :=
  os.filter (fun p => p.1 != k)

/-- `get_tokens_count`: `instance().get(&DataKey::TokensCount).unwrap_or(0)`. -/
def get_tokens_count (s : ContractState) : Nat :=
  s.tokensCount.getD 0

/-- `get_max_token_id`: `instance().get(&DataKey::MaxTokenId).unwrap_or(0)`. -/
def get_max_token_id (s : ContractState) : Nat :=
  s.maxTokenId.getD 0

/-- `is_collection_frozen`: `instance().has(&DataKey::Frozen)`. -/
def is_collection_frozen (s : ContractState) : Bool :=
  s.frozen

def MAX_NAME_LENGTH : Nat := 128
def MAX_DESCRIPTION_LENGTH : Nat := 512
def MAX_LINK_LENGTH : Nat := 100
def MAX_ROYALTY_SHARE : Nat := 5000

/-- `require_auth` on one address, given the injected authorization gate. -/
def requireAuth (auth : Address → Bool) (a : Address) : Except Err Unit :=
  if auth a then .ok () else .error (.authErr a)

/-- Modelled from the spec: `TokenInfo::check_can_send` (defined in the
missing `types.rs`).  Spec §4.4: the sender must be the current owner OR hold
a non-expired approval for this exact item; otherwise, or if the approval is
expired, the call fails with `NotAuthorized`.  The operator-grant channel is
not consulted (§9). -/
def TokenInfo.check_can_send (token : TokenInfo) (env : Ledger) (sender : Address) : Except Err Unit :=
  if token.owner == sender then .ok ()
  else
    match token.approvals.lookup sender with
    | some e => if e.is_expired env then .error (.contractErr .NotAuthorized) else .ok ()
    | none => .error (.contractErr .NotAuthorized)

/-- Modelled from the spec: `TokenInfo::check_can_approve` (defined in the
missing `types.rs`).  Spec §4.5: approval and transfer share one authority
predicate — the caller must be the owner or hold a non-expired approval. -/
def TokenInfo.check_can_approve (token : TokenInfo) (env : Ledger) (sender : Address) : Except Err Unit :=
  if token.owner == sender then .ok ()
  else
    match token.approvals.lookup sender with
    | some e => if e.is_expired env then .error (.contractErr .NotAuthorized) else .ok ()
    | none => .error (.contractErr .NotAuthorized)

/-- `_set_collection_info`: validates the bounded fields and stores the
singleton. -/
def _set_collection_info (s : ContractState) (collection_info : CollectionInfo) : Except Err ContractState :=
  if collection_info.name.any (fun n => n.length > MAX_NAME_LENGTH) then
    .error (.contractErr .InvalidCollectionInfo)
  else if collection_info.description.any (fun d => d.length > MAX_DESCRIPTION_LENGTH) then
    .error (.contractErr .InvalidCollectionInfo)
  else if collection_info.external_link.any (fun l => l.length > MAX_LINK_LENGTH) then
    .error (.contractErr .InvalidCollectionInfo)
  else if collection_info.royalty_info.any (fun r => r.share > MAX_ROYALTY_SHARE) then
    .error (.contractErr .InvalidCollectionInfo)
  else
    .ok { s with collectionInfo := some collection_info }

/-- `_change_tokens_count`: reads the counter (default 0), then `-= 1` or
`+= 1` and stores it back.  The `u32` decrement underflows (panics) at 0. -/
def _change_tokens_count (s : ContractState) (decrease : Bool) : Except Err ContractState :=
  let tokens_count := get_tokens_count s
  if decrease then
    if tokens_count = 0 then .error .arithUnderflow
    else .ok { s with tokensCount := some (tokens_count - 1) }
  else
    .ok { s with tokensCount := some (tokens_count + 1) }

/-- `NFTCollection::initialize` (named `initialize_` because the source name
is a Lean keyword). -/
def initialize_ (auth : Address → Bool) (s : ContractState) (collection_info : CollectionInfo) (freeze_minter : Bool) : Except Err ContractState :=
  if s.collectionInfo.isSome then .error (.contractErr .Initialized)
  else if auth collection_info.creator then
    let s1 := if freeze_minter then { s with minterFrozen := true } else s
    _set_collection_info s1 collection_info
  else .error (.authErr collection_info.creator)

/-- `NFTCollection::transfer`. -/
def transfer (env : Ledger) (auth : Address → Bool) (s : ContractState) (from_ to_ : Address) (token_id : Nat) : Except Err ContractState :=
  match tokensGet s.tokens token_id with
  | none => .error (.contractErr .NotNFT)
  | some token =>
    if auth from_ then
      match token.check_can_send env from_ with
      | .error e => .error e
      | .ok _ =>
        let token' : TokenInfo := { token with owner := to_, approvals := [] }
        .ok { s with tokens := tokensSet s.tokens token_id token' }
    else .error (.authErr from_)

/-- `NFTCollection::mint`. -/
def mint (auth : Address → Bool) (s : ContractState) (owner : Address) (token_id : Nat) (token_uri : String) : Except Err ContractState :=
  match s.collectionInfo with
  | none => .error (.contractErr .NotInitialized)
  | some collection_info =>
    if auth collection_info.minter then
      if tokensHas s.tokens token_id then .error (.contractErr .AlreadyMinted)
      else
        let token : TokenInfo := { owner := owner, approvals := [], token_uri := token_uri }
        let s1 := { s with tokens := tokensSet s.tokens token_id token }
        match _change_tokens_count s1 false with
        | .error e => .error e
        | .ok s2 =>
          let max_token_id := get_max_token_id s2
          if max_token_id < token_id then .ok { s2 with maxTokenId := some token_id }
          else .ok s2
    else .error (.authErr collection_info.minter)

/-- The loop body of `NFTCollection::bulk_mint`: iterates the `(id, uri)`
pairs, panicking with `AlreadyMinted` on a present id, otherwise storing the
new item and updating the two local accumulators. -/
def bulkLoop (owner : Address) : List (Nat × String) → List (Nat × TokenInfo) → Nat → Nat → Except Err (List (Nat × TokenInfo) × Nat × Nat)
  | [], ts, tokens_count, max_token_id => .ok (ts, tokens_count, max_token_id)
  | (token_id, token_uri) :: rest, ts, tokens_count, max_token_id =>
    if tokensHas ts token_id then .error (.contractErr .AlreadyMinted)
    else
      let token : TokenInfo := { owner := owner, approvals := [], token_uri := token_uri }
      bulkLoop owner rest (tokensSet ts token_id token) (tokens_count + 1)
        (if max_token_id < token_id then token_id else max_token_id)

/-- `NFTCollection::bulk_mint`: reads both counters once before the loop and
writes them once after it. -/
def bulk_mint (auth : Address → Bool) (s : ContractState) (owner : Address) (tokens : List (Nat × String)) : Except Err ContractState :=
  match s.collectionInfo with
  | none => .error (.contractErr .NotInitialized)
  | some collection_info =>
    if auth collection_info.minter then
      match bulkLoop owner tokens s.tokens (get_tokens_count s) (get_max_token_id s) with
      | .error e => .error e
      | .ok (ts, tokens_count, max_token_id) =>
        .ok { s with tokens := ts, maxTokenId := some max_token_id, tokensCount := some tokens_count }
    else .error (.authErr collection_info.minter)

/-- `NFTCollection::burn`. -/
def burn (env : Ledger) (auth : Address → Bool) (s : ContractState) (owner : Address) (token_id : Nat) : Except Err ContractState :=
  match tokensGet s.tokens token_id with
  | none => .error (.contractErr .NotNFT)
  | some token =>
    if auth owner then
      match token.check_can_approve env owner with
      | .error e => .error e
      | .ok _ =>
        let s1 := { s with tokens := tokensRemove s.tokens token_id }
        _change_tokens_count s1 true
    else .error (.authErr owner)

/-- `_update_approvals`: remove the spender's entry; when adding, reject an
already-expired expiration (default `Never`) and set the entry. -/
def _update_approvals (env : Ledger) (token : TokenInfo) (spender : Address) (add : Bool) (expires : Option Expiration) : Except Err (List (Address × Expiration)) :=
  let approvals := token.approvals.filter (fun p => p.1 != spender)
  if add then
    let e := expires.getD .Never
    if e.is_expired env then .error (.contractErr .NotAuthorized)
    else .ok (approvals ++ [(spender, e)])
  else .ok approvals

/-- `NFTCollection::approve`. -/
def approve (env : Ledger) (auth : Address → Bool) (s : ContractState) (owner spender : Address) (token_id : Nat) (expires : Option Expiration) : Except Err ContractState :=
  match tokensGet s.tokens token_id with
  | none => .error (.contractErr .NotNFT)
  | some token =>
    if auth owner then
      match token.check_can_approve env owner with
      | .error e => .error e
      | .ok _ =>
        match _update_approvals env token spender true expires with
        | .error e => .error e
        | .ok aps =>
          .ok { s with tokens := tokensSet s.tokens token_id ({ token with approvals := aps }) }
    else .error (.authErr owner)

/-- `NFTCollection::revoke`. -/
def revoke (env : Ledger) (auth : Address → Bool) (s : ContractState) (owner spender : Address) (token_id : Nat) : Except Err ContractState :=
  match tokensGet s.tokens token_id with
  | none => .error (.contractErr .NotNFT)
  | some token =>
    if auth owner then
      match token.check_can_approve env owner with
      | .error e => .error e
      | .ok _ =>
        match _update_approvals env token spender false none with
        | .error e => .error e
        | .ok aps =>
          .ok { s with tokens := tokensSet s.tokens token_id ({ token with approvals := aps }) }
    else .error (.authErr owner)

/-- `NFTCollection::approve_all`: stores `expiration_ledger` under the
`(owner, operator)` temporary key, then extends its ttl by
`expiration_ledger.checked_sub(sequence).unwrap()` — the `unwrap` panics
exactly when `expiration_ledger < sequence`. -/
def approve_all (env : Ledger) (auth : Address → Bool) (s : ContractState) (owner operator : Address) (expiration_ledger : Nat) : Except Err ContractState :=
  if auth owner then
    let s1 := { s with operators := opSet s.operators (owner, operator) ({ value := expiration_ledger, ttl := 0 }) }
    if expiration_ledger < env.sequence then .error .arithUnderflow
    else
      let rec2 : OperatorRec := { value := expiration_ledger, ttl := expiration_ledger - env.sequence }
      .ok { s1 with operators := opSet s1.operators (owner, operator) rec2 }
  else .error (.authErr owner)

/-- `NFTCollection::revoke_all`. -/
def revoke_all (auth : Address → Bool) (s : ContractState) (owner operator : Address) : Except Err ContractState :=
  if auth owner then .ok { s with operators := opRemove s.operators (owner, operator) }
  else .error (.authErr owner)

/-- `NFTCollection::freeze_collection`. -/
def freeze_collection (auth : Address → Bool) (s : ContractState) : Except Err ContractState :=
  match s.collectionInfo with
  | none => .error (.contractErr .NotInitialized)
  | some collection_info =>
    if auth collection_info.admin then .ok { s with frozen := true }
    else .error (.authErr collection_info.admin)

/-- `NFTCollection::update_token_url`. -/
def update_token_url (auth : Address → Bool) (s : ContractState) (token_id : Nat) (token_uri : String) : Except Err ContractState :=
  if s.frozen then .error (.contractErr .Frozen)
  else
    match s.collectionInfo with
    | none => .error (.contractErr .NotInitialized)
    | some collection_info =>
      if auth collection_info.admin then
        match tokensGet s.tokens token_id with
        | none => .error (.contractErr .NotNFT)
        | some token =>
          .ok { s with tokens := tokensSet s.tokens token_id ({ token with token_uri := token_uri }) }
      else .error (.authErr collection_info.admin)

/-- `NFTCollection::update_collection_info`. -/
def update_collection_info (auth : Address → Bool) (s : ContractState) (new_collection_info : CollectionInfo) : Except Err ContractState :=
  if s.frozen then .error (.contractErr .Frozen)
  else
    match s.collectionInfo with
    | none => .error (.contractErr .NotInitialized)
    | some collection_info =>
      if auth collection_info.admin then
        if collection_info.minter != new_collection_info.minter && s.minterFrozen then
          .error (.contractErr .MinterFrozen)
        else if collection_info.creator != new_collection_info.creator then
          .error (.contractErr .InvalidCollectionInfo)
        else _set_collection_info s new_collection_info
      else .error (.authErr collection_info.admin)

/-- `NFTCollection::upgrade`: the wasm replacement itself is an external
effect; the contract state it can observe is unchanged. -/
def upgrade (auth : Address → Bool) (s : ContractState) (_hash : Nat) : Except Err ContractState :=
  if s.frozen then .error (.contractErr .Frozen)
  else
    match s.collectionInfo with
    | none => .error (.contractErr .NotInitialized)
    | some collection_info =>
      if auth collection_info.admin then .ok s
      else .error (.authErr collection_info.admin)

/-- `NFTCollection::extend_ttl_collection`: only touches storage retention
windows, which carry no observable contract state in this model. -/
def extend_ttl_collection (s : ContractState) (_start_after _limit : Nat) : Except Err ContractState :=
  .ok s

/-- `NFTCollection::extend_ttl_item`: likewise retention-only. -/
def extend_ttl_item (s : ContractState) (_token_id : Nat) : Except Err ContractState :=
  .ok s

/-- `NFTCollection::get_token_info`. -/
def get_token_info (s : ContractState) (token_id : Nat) : Except Err TokenInfo :=
  match tokensGet s.tokens token_id with
  | none => .error (.contractErr .NotNFT)
  | some token => .ok token

/-- `NFTCollection::get_collection_info`. -/
def get_collection_info (s : ContractState) : Except Err CollectionInfo :=
  match s.collectionInfo with
  | none => .error (.contractErr .NotInitialized)
  | some collection_info => .ok collection_info

/-- Rust's inclusive range `lo..=hi` as a list (empty when `lo > hi`). -/
def rangeIncl (lo hi : Nat) : List Nat := List.range' lo (hi + 1 - lo)

/-- The `owner.is_some()` branch of the `get_tokens` scan loop. -/
def gtLoopOwner (ts : List (Nat × TokenInfo)) (ow : Address) : List Nat → List TokenInfo
  | [] => []
  | n :: rest =>
    match tokensGet ts n with
    | some token =>
      if token.owner == ow then token :: gtLoopOwner ts ow rest
      else gtLoopOwner ts ow rest
    | none => gtLoopOwner ts ow rest

/-- The `else` branch of the `get_tokens` scan loop. -/
def gtLoopAll (ts : List (Nat × TokenInfo)) : List Nat → List TokenInfo
  | [] => []
  | n :: rest =>
    match tokensGet ts n with
    | some token => token :: gtLoopAll ts rest
    | none => gtLoopAll ts rest

/-- `NFTCollection::get_tokens`. -/
def get_tokens (s : ContractState) (owner : Option Address) (start_after limit : Nat) : List TokenInfo :=
  let max_token_id := get_max_token_id s
  let e0 := start_after + limit
  let e := if e0 > max_token_id then max_token_id else e0
  match owner with
  | some ow => gtLoopOwner s.tokens ow (rangeIncl start_after e)
  | none => gtLoopAll s.tokens (rangeIncl start_after e)

/-! ### Specification-side definitions

These follow the wording of the spec (not the code) and are compared with the
translated operations in the refinement-style theorems below. -/

/-- The spec's description of the `get_tokens` result: "exactly the existing
items with id in `[lo, hi]`, inclusive on both ends, in ascending id order,
optionally filtered by exact owner match". -/
def tokensInRange (s : ContractState) (owner : Option Address) (lo hi : Nat) : List TokenInfo :=
  (rangeIncl lo hi).filterMap (fun n =>
    (tokensGet s.tokens n).bind (fun t =>
      match owner with
      | some ow => if t.owner == ow then some t else none
      | none => some t))

/-- The spec's batch-failure condition for `bulk_mint`: some id in the batch
"already exists as an item (including an id duplicated earlier in the same
batch)". -/
def BatchCollides (ts : List (Nat × TokenInfo)) (ids : List Nat) : Prop :=
  (∃ i ∈ ids, tokensHas ts i = true) ∨ ¬ ids.Nodup

instance (ts : List (Nat × TokenInfo)) (ids : List Nat) : Decidable (BatchCollides ts ids) := by
  unfold BatchCollides
  infer_instance

/-- The maximum of a batch's ids (0 for the empty batch). -/
def maxOf (ids : List Nat) : Nat := ids.foldr Nat.max 0

/-! ### The full operation surface as one step relation -/

/-- One externally callable state-mutating operation together with its
arguments (read accessors return values and no post-state, so they are not
steps). -/
inductive Call
  | initialize_ (collection_info : CollectionInfo) (freeze_minter : Bool)
  | transfer (from_ to_ : Address) (token_id : Nat)
  | mint (owner : Address) (token_id : Nat) (token_uri : String)
  | bulk_mint (owner : Address) (tokens : List (Nat × String))
  | burn (owner : Address) (token_id : Nat)
  | approve (owner spender : Address) (token_id : Nat) (expires : Option Expiration)
  | revoke (owner spender : Address) (token_id : Nat)
  | approve_all (owner operator : Address) (expiration_ledger : Nat)
  | revoke_all (owner operator : Address)
  | freeze_collection
  | update_token_url (token_id : Nat) (token_uri : String)
  | update_collection_info (new_collection_info : CollectionInfo)
  | upgrade (hash : Nat)
  | extend_ttl_collection (start_after limit : Nat)
  | extend_ttl_item (token_id : Nat)

/-- Dispatch a call against a state, under a given ledger clock and
authorization gate. -/
def exec (env : Ledger) (auth : Address → Bool) (c : Call) (s : ContractState) : Except Err ContractState :=
  match c with
  | .initialize_ ci fm => initialize_ auth s ci fm
  | .transfer f t id => transfer env auth s f t id
  | .mint o id uri => mint auth s o id uri
  | .bulk_mint o toks => bulk_mint auth s o toks
  | .burn o id => burn env auth s o id
  | .approve o sp id e => approve env auth s o sp id e
  | .revoke o sp id => revoke env auth s o sp id
  | .approve_all o op e => approve_all env auth s o op e
  | .revoke_all o op => revoke_all auth s o op
  | .freeze_collection => freeze_collection auth s
  | .update_token_url id uri => update_token_url auth s id uri
  | .update_collection_info nci => update_collection_info auth s nci
  | .upgrade h => upgrade auth s h
  | .extend_ttl_collection a l => extend_ttl_collection s a l
  | .extend_ttl_item id => extend_ttl_item s id

/-- `Reaches s t`: the state `t` is obtainable from `s` by a (possibly empty)
sequence of successful contract calls, each under an arbitrary ledger clock
and authorization gate. -/
inductive Reaches : ContractState → ContractState → Prop
  | refl (s : ContractState) : Reaches s s
  | step {s t t' : ContractState} (h : Reaches s t) (env : Ledger) (auth : Address → Bool)
      (c : Call) (hc : exec env auth c t = .ok t') : Reaches s t'

/-! ### Concrete fixtures used by the witness theorems -/

/-- An authorization gate under which every identity's proof succeeds. -/
def authAll : Address → Bool := fun _ => true

/-- An authorization gate under which no identity's proof succeeds. -/
def authNone : Address → Bool := fun _ => false

/-- A minimal valid collection record: creator 0, admin 1, minter 2. -/
def ciEx : CollectionInfo :=
  { creator := 0, admin := 1, minter := 2, name := none, description := none,
    external_link := none, royalty_info := none }

/-- `ciEx` with the (immutable) creator changed. -/
def nciCreator : CollectionInfo := { ciEx with creator := 3 }

/-- The storage of a freshly deployed, uninitialized instance. -/
def sEmpty : ContractState :=
  { collectionInfo := none, minterFrozen := false, frozen := false, tokens := [],
    tokensCount := none, maxTokenId := none, operators := [] }

/-- `sEmpty` after `initialize(ciEx, false)`. -/
def sInit : ContractState := { sEmpty with collectionInfo := some ciEx }

/-- A token owned by 2 carrying one approval for 3 that expires at height 10. -/
def tokEx : TokenInfo := { owner := 2, approvals := [(3, Expiration.AtHeight 10)], token_uri := "u" }

/-- `sInit` holding `tokEx` under id 1. -/
def sTok : ContractState :=
  { sInit with tokens := [(1, tokEx)], tokensCount := some 1, maxTokenId := some 1 }

/-- The token created by `mint(9, 5, "u5")`. -/
def tok5 : TokenInfo := { owner := 9, approvals := [], token_uri := "u5" }

/-- `sInit` after `mint(9, 5, "u5")`. -/
def sMint5 : ContractState :=
  { sInit with tokens := [(5, tok5)], tokensCount := some 1, maxTokenId := some 5 }

/-- `sInit` with the `Frozen` flag set (the result of `freeze_collection`). -/
def sFrozen : ContractState := { sInit with frozen := true }

/-- `sTok` after `transfer(2, 5, 1)`. -/
def sTokMoved : ContractState :=
  { sTok with tokens := tokensSet sTok.tokens 1 ({ owner := 5, approvals := [], token_uri := "u" }) }

/-- `sTok` after `burn(2, 1)`. -/
def sTokBurned : ContractState :=
  { sTok with tokens := tokensRemove sTok.tokens 1, tokensCount := some (get_tokens_count sTok - 1) }

/-! ### Association-list storage lemmas -/

theorem tokensGet_remove (ts : List (Nat × TokenInfo)) (id j : Nat) :
    tokensGet (tokensRemove ts id) j = if j = id then none else tokensGet ts j := by
  induction ts with
  | nil => simp [tokensRemove, tokensGet, List.lookup]
  | cons p rest ih =>
    rcases p with ⟨k, v⟩
    simp only [tokensRemove, List.filter_cons] at ih ⊢
    by_cases hk : k = id
    · subst hk
      simp only [bne_self_eq_false, if_neg, Bool.false_eq_true, not_false_eq_true]
      rw [ih]
      by_cases hj : j = k
      · simp [hj]
      · have : (j == k) = false := by simp [hj]
        simp [tokensGet, List.lookup, this, hj]
    · have hcond : ((k : Nat) != id) = true := by simp [hk]
      simp only [hcond, if_pos]
      by_cases hj : j = k
      · subst hj
        simp [tokensGet, List.lookup, hk]
      · have : (j == k) = false := by simp [hj]
        simp only [tokensGet, List.lookup, this] at ih ⊢
        exact ih

theorem tokensGet_remove_self (ts : List (Nat × TokenInfo)) (id : Nat) :
    tokensGet (tokensRemove ts id) id = none := by
  simp [tokensGet_remove]

theorem tokensGet_remove_ne (ts : List (Nat × TokenInfo)) (id j : Nat) (h : j ≠ id) :
    tokensGet (tokensRemove ts id) j = tokensGet ts j := by
  simp [tokensGet_remove, h]

theorem tokensGet_set_self (ts : List (Nat × TokenInfo)) (id : Nat) (t : TokenInfo) :
    tokensGet (tokensSet ts id t) id = some t := by
  simp [tokensGet, tokensSet, List.lookup]

theorem tokensGet_set_ne (ts : List (Nat × TokenInfo)) (id j : Nat) (t : TokenInfo) (h : j ≠ id) :
    tokensGet (tokensSet ts id t) j = tokensGet ts j := by
  have hji : (j == id) = false := by simp [h]
  simp only [tokensGet, tokensSet, List.lookup, hji]
  exact tokensGet_remove_ne ts id j h

theorem tokensHas_set (ts : List (Nat × TokenInfo)) (id j : Nat) (t : TokenInfo) :
    tokensHas (tokensSet ts id t) j = true ↔ (j = id ∨ tokensHas ts j = true) := by
  by_cases h : j = id
  · subst h
    simp [tokensHas, tokensGet_set_self]
  · simp [tokensHas, tokensGet_set_ne ts id j t h, h]

theorem opGet_set_self (os : List ((Address × Address) × OperatorRec)) (k : Address × Address) (v : OperatorRec) :
    opGet (opSet os k v) k = some v := by
  simp [opGet, opSet, List.lookup]


/-! ### C10 — mint and bulk_mint require initialization -/

/-- C10: in every state with no stored collection record, `mint` and
`bulk_mint` fail with `NotInitialized`, whatever their arguments.  The
`.error` outcome carries no post-state, so no item is created and neither
counter is touched. -/
theorem mint_requires_initialization (auth : Address → Bool) (s : ContractState)
    (owner : Address) (token_id : Nat) (token_uri : String) (toks : List (Nat × String))
    (h : s.collectionInfo = none) :
    mint auth s owner token_id token_uri = .error (.contractErr .NotInitialized) ∧
    bulk_mint auth s owner toks = .error (.contractErr .NotInitialized) := by
  constructor
  · unfold mint
    rw [h]
  · unfold bulk_mint
    rw [h]

/-- Witness for C10 at the freshly deployed state. -/
theorem mint_requires_initialization_witness :
    mint authAll sEmpty 9 5 "u" = .error (.contractErr .NotInitialized) ∧
    bulk_mint authAll sEmpty 9 [(5, "u")] = .error (.contractErr .NotInitialized) :=
  mint_requires_initialization authAll sEmpty 9 5 "u" [(5, "u")] rfl

/-! ### C2 — mint creates the record and blocks a second mint -/

/-- C2: if `mint(owner, id, uri)` succeeds then `get_token_info(id)` on the
new state returns a record with that owner, empty approvals and that uri; and
in any state in which the item exists, a mint of the same id by an authorized
minter fails with `AlreadyMinted`. -/
theorem mint_creates_and_blocks_remint (auth : Address → Bool) (s s' : ContractState)
    (owner : Address) (token_id : Nat) (token_uri : String)
    (h : mint auth s owner token_id token_uri = .ok s') :
    get_token_info s' token_id = .ok ({ owner := owner, approvals := [], token_uri := token_uri }) ∧
    tokensHas s'.tokens token_id = true ∧
    (∀ (auth2 : Address → Bool) (t : ContractState) (ci2 : CollectionInfo) (owner2 : Address) (uri2 : String),
      t.collectionInfo = some ci2 → auth2 ci2.minter = true → tokensHas t.tokens token_id = true →
      mint auth2 t owner2 token_id uri2 = .error (.contractErr .AlreadyMinted)) := by
  have hgen : ∀ (auth2 : Address → Bool) (t : ContractState) (ci2 : CollectionInfo) (owner2 : Address) (uri2 : String),
      t.collectionInfo = some ci2 → auth2 ci2.minter = true → tokensHas t.tokens token_id = true →
      mint auth2 t owner2 token_id uri2 = .error (.contractErr .AlreadyMinted) := by
    intro auth2 t ci2 owner2 uri2 hci ha hhas
    unfold mint
    rw [hci]
    simp [ha, hhas]
  unfold mint at h
  cases hci : s.collectionInfo with
  | none => rw [hci] at h; simp at h
  | some ci =>
    rw [hci] at h
    by_cases ha : auth ci.minter = true
    · by_cases hhas : tokensHas s.tokens token_id = true
      · simp [ha, hhas] at h
      · simp only [ha, hhas, if_true, if_false, ite_true, ite_false, Bool.false_eq_true,
          _change_tokens_count] at h
        split at h
        · injection h with h2
          subst h2
          refine ⟨?_, ?_, hgen⟩
          · simp [get_token_info, tokensGet_set_self]
          · simp [tokensHas, tokensGet_set_self]
        · injection h with h2
          subst h2
          refine ⟨?_, ?_, hgen⟩
          · simp [get_token_info, tokensGet_set_self]
          · simp [tokensHas, tokensGet_set_self]
    · simp [ha] at h

/-- Witness for C2: mint id 5 into the initialized empty state, then remint. -/
theorem mint_creates_and_blocks_remint_witness :
    get_token_info sMint5 5 = .ok ({ owner := 9, approvals := [], token_uri := "u5" }) ∧
    mint authAll sMint5 9 5 "x" = .error (.contractErr .AlreadyMinted) := by
  have h := mint_creates_and_blocks_remint authAll sInit sMint5 9 5 "u5" (by rfl)
  exact ⟨h.1, h.2.2 authAll sMint5 ciEx 9 "x" rfl rfl (by rfl)⟩

/-! ### C3 — transfer rewrites exactly one record -/

/-- C3: after a successful `transfer(from, to, token_id)`, the moved item's
owner is `to`, its approvals map is empty (whatever it held before), its
`token_uri` is unchanged, and every other item record, both counters, and the
collection record are unchanged. -/
theorem transfer_spec (env : Ledger) (auth : Address → Bool) (s s' : ContractState)
    (from_ to_ : Address) (token_id : Nat)
    (h : transfer env auth s from_ to_ token_id = .ok s') :
    ∃ token, tokensGet s.tokens token_id = some token ∧
      get_token_info s' token_id = .ok ({ owner := to_, approvals := [], token_uri := token.token_uri }) ∧
      (∀ j, j ≠ token_id → tokensGet s'.tokens j = tokensGet s.tokens j) ∧
      get_tokens_count s' = get_tokens_count s ∧
      get_max_token_id s' = get_max_token_id s ∧
      s'.collectionInfo = s.collectionInfo := by
  unfold transfer at h
  cases htok : tokensGet s.tokens token_id with
  | none => rw [htok] at h; simp at h
  | some token =>
    rw [htok] at h
    by_cases ha : auth from_ = true
    · simp only [ha, if_true, ite_true] at h
      cases hcs : token.check_can_send env from_ with
      | error e => rw [hcs] at h; simp at h
      | ok u =>
        rw [hcs] at h
        simp only [] at h
        injection h with h2
        subst h2
        refine ⟨token, rfl, ?_, ?_, rfl, rfl, rfl⟩
        · simp [get_token_info, tokensGet_set_self]
        · intro j hj
          simp [tokensGet_set_ne _ _ _ _ hj]
    · simp [ha] at h

/-- Witness for C3: the owner (2) moves token 1, which carries an approval,
to 5. -/
theorem transfer_spec_witness :
    get_token_info sTokMoved 1 = .ok ({ owner := 5, approvals := [], token_uri := "u" }) ∧
    get_tokens_count sTokMoved = get_tokens_count sTok := by
  have h := transfer_spec ⟨4, 0⟩ authAll sTok sTokMoved 2 5 1 (by rfl)
  obtain ⟨tok, htok, hinfo, hother, hcount, hmax, hci⟩ := h
  have : tok = tokEx := by
    have : some tok = some tokEx := htok.symm.trans (by rfl)
    exact Option.some.inj this
  subst this
  exact ⟨hinfo, hcount⟩

/-! ### C5 — burn deletes the record and decrements the live count -/

/-- C5: after a successful `burn(owner, token_id)`, `get_token_info` on that
id fails with `NotNFT`, `tokens_count` is one less than before, and
`max_token_id` is unchanged. -/
theorem burn_spec (env : Ledger) (auth : Address → Bool) (s s' : ContractState)
    (owner : Address) (token_id : Nat)
    (h : burn env auth s owner token_id = .ok s') :
    get_token_info s' token_id = .error (.contractErr .NotNFT) ∧
    get_tokens_count s' + 1 = get_tokens_count s ∧
    get_max_token_id s' = get_max_token_id s := by
  unfold burn at h
  cases htok : tokensGet s.tokens token_id with
  | none => rw [htok] at h; simp at h
  | some token =>
    rw [htok] at h
    by_cases ha : auth owner = true
    · simp only [ha, if_true, ite_true] at h
      cases hcs : token.check_can_approve env owner with
      | error e => rw [hcs] at h; simp at h
      | ok u =>
        rw [hcs] at h
        unfold _change_tokens_count at h
        simp only [eq_self_iff_true, if_true, ite_true] at h
        split at h
        · simp at h
        · rename_i hc0
          injection h with h2
          subst h2
          refine ⟨?_, ?_, rfl⟩
          · simp [get_token_info, tokensGet_remove_self]
          · simp only [get_tokens_count, Option.getD_some] at hc0 ⊢
            omega
    · simp [ha] at h

/-- Witness for C5: the owner burns token 1 of `sTok`. -/
theorem burn_spec_witness :
    get_token_info sTokBurned 1 = .error (.contractErr .NotNFT) ∧
    get_tokens_count sTokBurned + 1 = get_tokens_count sTok ∧
    get_max_token_id sTokBurned = get_max_token_id sTok := by
  have h := burn_spec ⟨4, 0⟩ authAll sTok sTokBurned 2 1 (by rfl)
  exact h

/-! ### C4 — approval expiry gates a spender's transfer -/

/-- C4: for an item whose approvals grant `spender` (not the owner) an
approval expiring at ledger height `H`, a transfer with `from = spender`
fails with `NotAuthorized` at every current height `≥ H` and succeeds at
every height `< H` (the item existing and the identity proof passing). -/
theorem approval_expiry (env : Ledger) (auth : Address → Bool) (s : ContractState)
    (spender to_ : Address) (token_id H : Nat) (token : TokenInfo)
    (htok : tokensGet s.tokens token_id = some token)
    (happ : token.approvals.lookup spender = some (.AtHeight H))
    (hns : token.owner ≠ spender)
    (ha : auth spender = true) :
    (H ≤ env.sequence →
      transfer env auth s spender to_ token_id = .error (.contractErr .NotAuthorized)) ∧
    (env.sequence < H →
      transfer env auth s spender to_ token_id =
        .ok { s with tokens := tokensSet s.tokens token_id ({ token with owner := to_, approvals := [] }) }) := by
  have hbeq : (token.owner == spender) = false := by simp [hns]
  constructor
  · intro hexp
    unfold transfer
    rw [htok]
    simp only [ha, if_true, ite_true]
    unfold TokenInfo.check_can_send
    rw [hbeq, happ]
    simp [Expiration.is_expired, hexp]
  · intro hlt
    unfold transfer
    rw [htok]
    simp only [ha, if_true, ite_true]
    unfold TokenInfo.check_can_send
    rw [hbeq, happ]
    simp [Expiration.is_expired, Nat.not_le.mpr hlt]

/-- Witness for C4 on `sTok`: spender 3's approval on token 1 expires at
height 10; the transfer fails at height 12 and succeeds at height 9. -/
theorem approval_expiry_witness :
    transfer ⟨12, 0⟩ authAll sTok 3 5 1 = .error (.contractErr .NotAuthorized) ∧
    transfer ⟨9, 0⟩ authAll sTok 3 5 1 =
      .ok { sTok with tokens := tokensSet sTok.tokens 1 ({ tokEx with owner := 5, approvals := [] }) } := by
  constructor
  · exact (approval_expiry ⟨12, 0⟩ authAll sTok 3 5 1 10 tokEx rfl rfl (by decide) rfl).1 (by decide)
  · exact (approval_expiry ⟨9, 0⟩ authAll sTok 3 5 1 10 tokEx rfl rfl (by decide) rfl).2 (by decide)

/-! ### C6 — get_tokens is the filtered inclusive-range scan -/

theorem gtLoopAll_eq (ts : List (Nat × TokenInfo)) (ns : List Nat) :
    gtLoopAll ts ns = ns.filterMap (fun n => tokensGet ts n) := by
  induction ns with
  | nil => rfl
  | cons n rest ih =>
    simp only [gtLoopAll, List.filterMap_cons]
    cases tokensGet ts n <;> simp [ih]

theorem gtLoopOwner_eq (ts : List (Nat × TokenInfo)) (ow : Address) (ns : List Nat) :
    gtLoopOwner ts ow ns =
      ns.filterMap (fun n => (tokensGet ts n).bind (fun t => if t.owner == ow then some t else none)) := by
  induction ns with
  | nil => rfl
  | cons n rest ih =>
    simp only [gtLoopOwner, List.filterMap_cons]
    cases htok : tokensGet ts n with
    | none => simp [ih]
    | some t =>
      by_cases hw : t.owner = ow
      · simp [hw, ih]
      · simp [hw, ih]

/-- C6: `get_tokens(owner?, start_after, limit)` returns exactly the existing
items with id in `[start_after, min(start_after + limit, max_token_id)]`,
inclusive on both ends, in ascending id order, keeping only the given owner's
items when one is supplied; the `get_tokens(None, 0, L)` case of the claim is
the instance `owner = none`, `start_after = 0`. -/
theorem get_tokens_spec (s : ContractState) (owner : Option Address) (start_after limit : Nat) :
    get_tokens s owner start_after limit =
      tokensInRange s owner start_after (min (start_after + limit) (get_max_token_id s)) := by
  have hmin : (if start_after + limit > get_max_token_id s then get_max_token_id s
      else start_after + limit) = min (start_after + limit) (get_max_token_id s) := by
    rw [Nat.min_def]
    by_cases hc : start_after + limit ≤ get_max_token_id s
    · rw [if_pos hc, if_neg (by omega)]
    · by_cases hg : start_after + limit > get_max_token_id s
      · rw [if_pos hg, if_neg hc]
      · exact absurd (Nat.gt_of_not_le hc) hg
  unfold get_tokens tokensInRange
  cases owner with
  | none =>
    simp only [hmin]
    have hfn : (fun n => (tokensGet s.tokens n).bind (fun t => some t)) =
        fun n => tokensGet s.tokens n := by
      funext n
      cases tokensGet s.tokens n <;> rfl
    rw [gtLoopAll_eq]
    simp only [hfn]
  | some ow =>
    simp only [hmin]
    exact gtLoopOwner_eq s.tokens ow _

/-! ### C7 — creator immutability in update_collection_info -/

/-- Counterexample to C7 as stated: with the stored collection's admin (1)
failing its authorization proof and a `new_collection_info` whose creator (3)
differs from the stored creator (0), `update_collection_info` aborts with the
host authorization failure for the admin, not with `InvalidCollectionInfo` —
the claim's "regardless of admin authorization validity" does not hold. -/
theorem update_collection_info_creator_cex :
    update_collection_info authNone sInit nciCreator = .error (.authErr 1) ∧
    update_collection_info authNone sInit nciCreator ≠
      .error (.contractErr .InvalidCollectionInfo) := by
  have h1 : update_collection_info authNone sInit nciCreator = .error (.authErr 1) := rfl
  refine ⟨h1, ?_⟩
  intro hcontra
  have h2 : (Except.error (Err.authErr 1) : Except Err ContractState) =
      .error (.contractErr .InvalidCollectionInfo) := h1.symm.trans hcontra
  simp at h2

/-- C7 (amended): when the call reaches the creator check — the collection is
initialized and not frozen, the admin's authorization proof passes, and the
minter is unchanged or the minter-frozen flag is unset — a
`new_collection_info` whose creator differs from the stored creator always
fails with `InvalidCollectionInfo`, regardless of its remaining fields. -/
theorem update_collection_info_creator_immutable (auth : Address → Bool)
    (s : ContractState) (ci nci : CollectionInfo)
    (hfz : s.frozen = false)
    (hci : s.collectionInfo = some ci)
    (ha : auth ci.admin = true)
    (hmf : ci.minter = nci.minter ∨ s.minterFrozen = false)
    (hcr : ci.creator ≠ nci.creator) :
    update_collection_info auth s nci = .error (.contractErr .InvalidCollectionInfo) := by
  unfold update_collection_info
  rw [hfz, hci]
  have hmcond : (ci.minter != nci.minter && s.minterFrozen) = false := by
    rcases hmf with hm | hm
    · simp [hm]
    · simp [hm]
  have hccond : (ci.creator != nci.creator) = true := by simp [hcr]
  simp [ha, hmcond, hccond]

/-- Witness for the amended C7: valid admin auth on the initialized state,
creator changed from 0 to 3. -/
theorem update_collection_info_creator_immutable_witness :
    update_collection_info authAll sInit nciCreator = .error (.contractErr .InvalidCollectionInfo) :=
  update_collection_info_creator_immutable authAll sInit ciEx nciCreator rfl rfl rfl
    (Or.inl rfl) (by decide)

/-! ### C8 — approve_all: underflow boundary and requested ttl -/

/-- Counterexample to C8 as stated: at current ledger height 5 and
`expiration_ledger = 5` (so `expiration_ledger ≤ height`), the
`checked_sub(...).unwrap()` computes `Some(0)` and the call SUCCEEDS, writing
the operator record with a requested time-to-live of 0 — it does not fail.
The claim's "≤" boundary is wrong: only the strict `<` case underflows. -/
theorem approve_all_eq_height_cex :
    approve_all ⟨5, 0⟩ authAll sEmpty 1 2 5 =
      .ok { sEmpty with operators := [((1, 2), { value := 5, ttl := 0 })] } := rfl

/-- C8 (amended): with the owner's proof passing, `approve_all` fails with the
arithmetic-underflow panic exactly when `expiration_ledger` is strictly below
the current ledger height, and otherwise succeeds, storing under
`(owner, operator)` the value `expiration_ledger` with a requested
time-to-live of exactly `expiration_ledger − current height` (0 at the
equality boundary). -/
theorem approve_all_spec (env : Ledger) (auth : Address → Bool) (s : ContractState)
    (owner operator : Address) (expiration_ledger : Nat)
    (ha : auth owner = true) :
    (expiration_ledger < env.sequence →
      approve_all env auth s owner operator expiration_ledger = .error .arithUnderflow) ∧
    (env.sequence ≤ expiration_ledger →
      ∃ s', approve_all env auth s owner operator expiration_ledger = .ok s' ∧
        opGet s'.operators (owner, operator) =
          some ({ value := expiration_ledger, ttl := expiration_ledger - env.sequence })) := by
  constructor
  · intro hlt
    unfold approve_all
    simp [ha, hlt]
  · intro hle
    have hnlt : ¬ (expiration_ledger < env.sequence) := by omega
    have key : approve_all env auth s owner operator expiration_ledger = .ok { s with operators := opSet (opSet s.operators (owner, operator) ⟨expiration_ledger, 0⟩) (owner, operator) ⟨expiration_ledger, expiration_ledger - env.sequence⟩ } := by
      unfold approve_all
      simp [ha, hnlt]
    exact ⟨_, key, by rw [opGet_set_self]⟩

/-- Witness for the amended C8: at height 5, expiration 3 underflows, and
expiration 9 stores ttl 4. -/
theorem approve_all_spec_witness :
    approve_all ⟨5, 0⟩ authAll sEmpty 1 2 3 = .error .arithUnderflow ∧
    ∃ s', approve_all ⟨5, 0⟩ authAll sEmpty 1 2 9 = .ok s' ∧
      opGet s'.operators (1, 2) = some ({ value := 9, ttl := 4 }) := by
  constructor
  · exact (approve_all_spec ⟨5, 0⟩ authAll sEmpty 1 2 3 rfl).1 (by decide)
  · exact (approve_all_spec ⟨5, 0⟩ authAll sEmpty 1 2 9 rfl).2 (by decide)

/-! ### C1 — bulk_mint is all-or-nothing -/

theorem ifMax (m i : Nat) : (if m < i then i else m) = Nat.max m i := by
  unfold Nat.max
  by_cases h : m < i
  · rw [if_pos h]
    exact (max_eq_right (le_of_lt h)).symm
  · rw [if_neg h]
    exact (max_eq_left (by omega)).symm

theorem batchCollides_nil (ts : List (Nat × TokenInfo)) : ¬ BatchCollides ts [] := by
  rintro (⟨i, hi, _⟩ | hnd)
  · exact absurd hi (List.not_mem_nil i)
  · exact hnd List.nodup_nil

theorem batchCollides_cons (ts : List (Nat × TokenInfo)) (id : Nat) (ids : List Nat)
    (t : TokenInfo) (hnew : tokensHas ts id = false) :
    BatchCollides ts (id :: ids) ↔ BatchCollides (tokensSet ts id t) ids := by
  unfold BatchCollides
  constructor
  · rintro (⟨i, hi, hhas⟩ | hnd)
    · rcases List.mem_cons.mp hi with rfl | hi'
      · rw [hnew] at hhas
        cases hhas
      · exact Or.inl ⟨i, hi', (tokensHas_set ts id i t).mpr (Or.inr hhas)⟩
    · rw [List.nodup_cons] at hnd
      by_cases hmem : id ∈ ids
      · exact Or.inl ⟨id, hmem, (tokensHas_set ts id id t).mpr (Or.inl rfl)⟩
      · exact Or.inr (fun hnd2 => hnd ⟨hmem, hnd2⟩)
  · rintro (⟨i, hi, hhas⟩ | hnd)
    · rcases (tokensHas_set ts id i t).mp hhas with rfl | hold
      · exact Or.inr (fun hnd2 => (List.nodup_cons.mp hnd2).1 hi)
      · exact Or.inl ⟨i, List.mem_cons_of_mem id hi, hold⟩
    · exact Or.inr (fun hnd2 => hnd (List.nodup_cons.mp hnd2).2)

theorem bulkLoop_collides (owner : Address) :
    ∀ (toks : List (Nat × String)) (ts : List (Nat × TokenInfo)) (count mx : Nat),
      BatchCollides ts (toks.map Prod.fst) →
      bulkLoop owner toks ts count mx = .error (.contractErr .AlreadyMinted) := by
  intro toks
  induction toks with
  | nil =>
    intro ts count mx hc
    exact absurd hc (batchCollides_nil ts)
  | cons p rest ih =>
    intro ts count mx hc
    rcases p with ⟨id, uri⟩
    unfold bulkLoop
    by_cases hhas : tokensHas ts id = true
    · simp [hhas]
    · have hnew : tokensHas ts id = false := by simpa using hhas
      simp only [hnew, Bool.false_eq_true, if_false, ite_false]
      apply ih
      exact (batchCollides_cons ts id (rest.map Prod.fst) ⟨owner, [], uri⟩ hnew).mp hc

theorem bulkLoop_ok (owner : Address) :
    ∀ (toks : List (Nat × String)) (ts : List (Nat × TokenInfo)) (count mx : Nat),
      ¬ BatchCollides ts (toks.map Prod.fst) →
      ∃ ts', bulkLoop owner toks ts count mx =
          .ok (ts', count + toks.length, Nat.max mx (maxOf (toks.map Prod.fst))) ∧
        (∀ p ∈ toks, tokensGet ts' p.1 = some ⟨owner, [], p.2⟩) ∧
        (∀ j, j ∉ toks.map Prod.fst → tokensGet ts' j = tokensGet ts j) := by
  intro toks
  induction toks with
  | nil =>
    intro ts count mx hnc
    refine ⟨ts, ?_, ?_, ?_⟩
    · simp [bulkLoop, maxOf]
    · intro p hp
      exact absurd hp (List.not_mem_nil p)
    · intro j hj
      rfl
  | cons p rest ih =>
    intro ts count mx hnc
    rcases p with ⟨id, uri⟩
    have hnew : tokensHas ts id = false := by
      by_contra hc
      have hc' : tokensHas ts id = true := by simpa using hc
      exact hnc (Or.inl ⟨id, List.mem_cons_self id _, hc'⟩)
    have hnc' : ¬ BatchCollides (tokensSet ts id ⟨owner, [], uri⟩) (rest.map Prod.fst) :=
      fun hc => hnc ((batchCollides_cons ts id (rest.map Prod.fst) ⟨owner, [], uri⟩ hnew).mpr hc)
    have hnodup : (id :: rest.map Prod.fst).Nodup := by
      by_contra hnd
      exact hnc (Or.inr hnd)
    have hidout : id ∉ rest.map Prod.fst := (List.nodup_cons.mp hnodup).1
    obtain ⟨ts', hloop, hmem, hout⟩ :=
      ih (tokensSet ts id ⟨owner, [], uri⟩) (count + 1) (Nat.max mx id) hnc'
    refine ⟨ts', ?_, ?_, ?_⟩
    · unfold bulkLoop
      simp only [hnew, Bool.false_eq_true, if_false, ite_false]
      rw [ifMax, hloop]
      have h1 : count + 1 + rest.length = count + (rest.length + 1) := by omega
      have h2 : Nat.max (Nat.max mx id) (maxOf (rest.map Prod.fst)) =
          Nat.max mx (maxOf (id :: rest.map Prod.fst)) := by
        simp only [maxOf, List.foldr_cons]
        exact Nat.max_assoc mx id _
      simp only [List.map_cons, List.length_cons, h1, h2]
    · intro p hp
      rcases List.mem_cons.mp hp with hp0 | hp'
      · subst hp0
        rw [hout id hidout]
        exact tokensGet_set_self ts id ⟨owner, [], uri⟩
      · exact hmem p hp'
    · intro j hj
      simp only [List.map_cons, List.mem_cons] at hj
      push_neg at hj
      rw [hout j (by simpa using hj.2)]
      exact tokensGet_set_ne ts id j ⟨owner, [], uri⟩ hj.1

/-- C1: bulk_mint is atomic.  With the collection initialized and the minter
authorized: if any id in the batch already exists (or repeats an earlier id
of the same batch) the whole call fails with `AlreadyMinted` — an `.error`
outcome carries no post-state, so no item, `tokens_count` or `max_token_id`
value observable after the call differs from before.  Otherwise every id in
the batch is created with the given owner, empty approvals and its uri,
`tokens_count` grows by the batch length, and `max_token_id` becomes the
maximum of its prior value and the batch's ids. -/
theorem bulk_mint_atomic (auth : Address → Bool) (s : ContractState) (owner : Address)
    (toks : List (Nat × String)) (ci : CollectionInfo)
    (hci : s.collectionInfo = some ci) (ha : auth ci.minter = true) :
    (BatchCollides s.tokens (toks.map Prod.fst) →
      bulk_mint auth s owner toks = .error (.contractErr .AlreadyMinted)) ∧
    (¬ BatchCollides s.tokens (toks.map Prod.fst) →
      ∃ s', bulk_mint auth s owner toks = .ok s' ∧
        (∀ p ∈ toks, tokensGet s'.tokens p.1 = some ⟨owner, [], p.2⟩) ∧
        (∀ j, j ∉ toks.map Prod.fst → tokensGet s'.tokens j = tokensGet s.tokens j) ∧
        get_tokens_count s' = get_tokens_count s + toks.length ∧
        get_max_token_id s' = Nat.max (get_max_token_id s) (maxOf (toks.map Prod.fst)) ∧
        s'.collectionInfo = s.collectionInfo) := by
  constructor
  · intro hc
    unfold bulk_mint
    rw [hci]
    simp only [ha, if_true, ite_true]
    rw [bulkLoop_collides owner toks s.tokens _ _ hc]
  · intro hnc
    obtain ⟨ts', hloop, hmem, hout⟩ :=
      bulkLoop_ok owner toks s.tokens (get_tokens_count s) (get_max_token_id s) hnc
    refine ⟨{ s with tokens := ts', maxTokenId := some (Nat.max (get_max_token_id s) (maxOf (toks.map Prod.fst))), tokensCount := some (get_tokens_count s + toks.length) }, ?_, hmem, hout, by simp [get_tokens_count], by simp [get_max_token_id], rfl⟩
    unfold bulk_mint
    rw [hci]
    simp only [ha, if_true, ite_true]
    rw [hloop]

/-- Witness for C1: the spec's own scenario — bulk mint ids 5 and 7 into the
fresh collection; afterwards the count is 2 and the high-water mark is 7. -/
theorem bulk_mint_atomic_witness :
    ∃ s', bulk_mint authAll sInit 9 [(5, "a"), (7, "b")] = .ok s' ∧
      get_tokens_count s' = 2 ∧ get_max_token_id s' = 7 := by
  have h := (bulk_mint_atomic authAll sInit 9 [(5, "a"), (7, "b")] ciEx rfl rfl).2 (by decide)
  obtain ⟨s', hok, hmem, hout, hcount, hmax, hcoll⟩ := h
  refine ⟨s', hok, ?_, ?_⟩
  · rw [hcount]
    rfl
  · rw [hmax]
    rfl

/-! ### C9 — freezing is one-way across every operation -/

theorem _set_collection_info_frozen (s s' : ContractState) (ci : CollectionInfo)
    (h : _set_collection_info s ci = .ok s') : s'.frozen = s.frozen := by
  unfold _set_collection_info at h
  split at h
  · simp at h
  · split at h
    · simp at h
    · split at h
      · simp at h
      · split at h
        · simp at h
        · injection h with h2
          subst h2
          rfl

theorem _change_tokens_count_frozen (s s' : ContractState) (d : Bool)
    (h : _change_tokens_count s d = .ok s') : s'.frozen = s.frozen := by
  unfold _change_tokens_count at h
  by_cases hd : d = true
  · simp only [hd, eq_self_iff_true, if_true, ite_true] at h
    split at h
    · simp at h
    · injection h with h2
      subst h2
      rfl
  · simp only [hd, if_false, ite_false, Bool.false_eq_true] at h
    injection h with h2
    subst h2
    rfl

/-- No successful call ever clears the `Frozen` flag: `freeze_collection` sets
it, the three frozen-gated operations abort on it, and every other operation
leaves it untouched. -/
theorem exec_preserves_frozen (env : Ledger) (auth : Address → Bool) (c : Call)
    (s s' : ContractState) (h : exec env auth c s = .ok s') (hf : s.frozen = true) :
    s'.frozen = true := by
  cases c with
  | initialize_ ci fm =>
    simp only [exec] at h
    unfold initialize_ at h
    split at h
    · simp at h
    · split at h
      · rw [_set_collection_info_frozen _ _ _ h]
        split
        · exact hf
        · exact hf
      · simp at h
  | transfer f t id =>
    simp only [exec] at h
    unfold transfer at h
    split at h
    · simp at h
    · split at h
      · split at h
        · simp at h
        · injection h with h2
          subst h2
          exact hf
      · simp at h
  | mint o id uri =>
    simp only [exec] at h
    unfold mint at h
    split at h
    · simp at h
    · split at h
      · split at h
        · simp at h
        · dsimp only at h
          split at h
          · simp at h
          · rename_i hcc
            split at h
            · injection h with h2
              subst h2
              exact (_change_tokens_count_frozen _ _ _ hcc).trans hf
            · injection h with h2
              subst h2
              exact (_change_tokens_count_frozen _ _ _ hcc).trans hf
      · simp at h
  | bulk_mint o toks =>
    simp only [exec] at h
    unfold bulk_mint at h
    split at h
    · simp at h
    · split at h
      · split at h
        · simp at h
        · injection h with h2
          subst h2
          exact hf
      · simp at h
  | burn o id =>
    simp only [exec] at h
    unfold burn at h
    split at h
    · simp at h
    · split at h
      · split at h
        · simp at h
        · exact (_change_tokens_count_frozen _ _ _ h).trans hf
      · simp at h
  | approve o sp id e =>
    simp only [exec] at h
    unfold approve at h
    split at h
    · simp at h
    · split at h
      · split at h
        · simp at h
        · split at h
          · simp at h
          · injection h with h2
            subst h2
            exact hf
      · simp at h
  | revoke o sp id =>
    simp only [exec] at h
    unfold revoke at h
    split at h
    · simp at h
    · split at h
      · split at h
        · simp at h
        · split at h
          · simp at h
          · injection h with h2
            subst h2
            exact hf
      · simp at h
  | approve_all o op e =>
    simp only [exec] at h
    unfold approve_all at h
    split at h
    · split at h
      · simp at h
      · injection h with h2
        subst h2
        exact hf
    · simp at h
  | revoke_all o op =>
    simp only [exec] at h
    unfold revoke_all at h
    split at h
    · injection h with h2
      subst h2
      exact hf
    · simp at h
  | freeze_collection =>
    simp only [exec] at h
    unfold freeze_collection at h
    split at h
    · simp at h
    · split at h
      · injection h with h2
        subst h2
        rfl
      · simp at h
  | update_token_url id uri =>
    simp only [exec] at h
    unfold update_token_url at h
    rw [hf] at h
    simp at h
  | update_collection_info nci =>
    simp only [exec] at h
    unfold update_collection_info at h
    rw [hf] at h
    simp at h
  | upgrade hs =>
    simp only [exec] at h
    unfold upgrade at h
    rw [hf] at h
    simp at h
  | extend_ttl_collection a l =>
    simp only [exec] at h
    unfold extend_ttl_collection at h
    injection h with h2
    subst h2
    exact hf
  | extend_ttl_item id =>
    simp only [exec] at h
    unfold extend_ttl_item at h
    injection h with h2
    subst h2
    exact hf

theorem reaches_preserves_frozen (s t : ContractState) (h : Reaches s t)
    (hf : s.frozen = true) : t.frozen = true := by
  induction h with
  | refl => exact hf
  | step hr env auth c hc ih => exact exec_preserves_frozen env auth c _ _ hc ih

/-- C9: freezing is one-way.  In every state reachable (by any sequence of
successful calls, under any ledger clocks and authorization gates) after a
successful `freeze_collection`, the `Frozen` flag is still set, and
`update_collection_info`, `update_token_url` and `upgrade` all fail with
`Frozen` whatever their arguments and whoever the caller. -/
theorem freeze_one_way (auth0 : Address → Bool) (s s₀ t : ContractState)
    (hfr : freeze_collection auth0 s = .ok s₀) (hr : Reaches s₀ t) :
    t.frozen = true ∧
    (∀ (auth : Address → Bool) (nci : CollectionInfo),
      update_collection_info auth t nci = .error (.contractErr .Frozen)) ∧
    (∀ (auth : Address → Bool) (id : Nat) (uri : String),
      update_token_url auth t id uri = .error (.contractErr .Frozen)) ∧
    (∀ (auth : Address → Bool) (hs : Nat),
      upgrade auth t hs = .error (.contractErr .Frozen)) := by
  have hs0 : s₀.frozen = true := by
    unfold freeze_collection at hfr
    split at hfr
    · simp at hfr
    · split at hfr
      · injection hfr with h2
        subst h2
        rfl
      · simp at hfr
  have ht : t.frozen = true := reaches_preserves_frozen s₀ t hr hs0
  refine ⟨ht, ?_, ?_, ?_⟩
  · intro auth nci
    unfold update_collection_info
    rw [ht]
    simp
  · intro auth id uri
    unfold update_token_url
    rw [ht]
    simp
  · intro auth hs
    unfold upgrade
    rw [ht]
    simp

/-- Witness for C9: freeze the initialized collection, then all three
frozen-gated operations fail even for the admin with valid authorization. -/
theorem freeze_one_way_witness :
    sFrozen.frozen = true ∧
    update_collection_info authAll sFrozen nciCreator = .error (.contractErr .Frozen) ∧
    update_token_url authAll sFrozen 1 "x" = .error (.contractErr .Frozen) ∧
    upgrade authAll sFrozen 0 = .error (.contractErr .Frozen) := by
  have h := freeze_one_way authAll sInit sFrozen sFrozen (by rfl) (Reaches.refl sFrozen)
  exact ⟨h.1, h.2.1 authAll nciCreator, h.2.2.1 authAll 1 "x", h.2.2.2 authAll 0⟩
